import Mathlib

/-!
Verification development for the DLA scene-synthesis and multi-format export
pipeline (src/src/main.rs).  The geometric primitives (`Vec3`, the bounding
box, the `Dla` aggregate interface) live in the `dla` library crate, which is
not part of the sources under review; those parts are modelled from the spec,
as their doc comments state.  Everything else is translated directly from
`src/src/main.rs`.
-/

/-- Modelled from the spec: a 3-component integer vector (the `dla` crate's
`Vec3`, absent from src/); "x, y, z (signed integer ...)". -/
structure Vec3 where
  x : Int
  y : Int
  z : Int
deriving DecidableEq, Repr

instance : Add Vec3 := ⟨fun a b => ⟨a.x + b.x, a.y + b.y, a.z + b.z⟩⟩

instance : Sub Vec3 := ⟨fun a b => ⟨a.x - b.x, a.y - b.y, a.z - b.z⟩⟩

instance : HMul Vec3 Int Vec3 := ⟨fun v k => ⟨v.x * k, v.y * k, v.z * k⟩⟩

/-- Modelled from the spec: squared Euclidean distance between two points
(the `dla` crate's `Vec3::dist2`, absent from src/); "For every cell compute
squared Euclidean distance to the bbox center (squared distance avoids a
square root ...)". -/
def Vec3.dist2 (a b : Vec3) : Nat :=
  ((a.x - b.x) ^ 2 + (a.y - b.y) ^ 2 + (a.z - b.z) ^ 2).toNat

/-- Modelled from the spec: the axis-aligned bounding box of the aggregate
(the `dla` crate's bounding box type, absent from src/); "two corner vectors,
lower ≤ upper component-wise". -/
structure BoundingBox where
  lower : Vec3
  upper : Vec3
deriving DecidableEq, Repr

/-- Modelled from the spec: the box's center query (absent from src/),
taken as the componentwise midpoint of the two corners. -/
def BoundingBox.center (b : BoundingBox) : Vec3 :=
  ⟨(b.lower.x + b.upper.x) / 2, (b.lower.y + b.upper.y) / 2,
    (b.lower.z + b.upper.z) / 2⟩

/-- Modelled from the spec: the box's dimension query (absent from src/),
the componentwise extent `upper - lower`; per the spec a degenerate
single-point box has dimension zero. -/
def BoundingBox.dimensions (b : BoundingBox) : Vec3 :=
  b.upper - b.lower

/-- Modelled from the spec: the aggregation collaborator's query interface
(the `dla` crate's `Dla` type, absent from src/): "produce the final set of
occupied cells" and "produce the enclosing bounding box".  The spec's
invariants (non-empty cell list, unique positions, lower ≤ upper) are taken
as hypotheses where a claim needs them. -/
structure Dla where
  cells : List Vec3
  bbox : BoundingBox
deriving DecidableEq, Repr

/-- Camera of `src/src/main.rs`. -/
structure Camera where
  position : Vec3
  target : Vec3
deriving DecidableEq, Repr

/-- Light of `src/src/main.rs`; the `f32` intensity is modelled as an exact
rational (no arithmetic is ever performed on it). -/
structure Light where
  position : Vec3
  intensity : ℚ
deriving DecidableEq, Repr

/-- Scene of `src/src/main.rs`. -/
structure Scene where
  camera : Camera
  lights : List Light
  dla : Dla
deriving DecidableEq, Repr

/-- `Scene::new` of `src/src/main.rs`, parametric in the `dla` crate's
`Vec3::normalized` (library code absent from src/), which is passed in as
`nrm`.  Everything else is translated directly from the source. -/
def Scene.new (nrm : Vec3 → Vec3) (dla : Dla) : Scene :=
  let sceneBbox := dla.bbox
  let sceneDimensions := sceneBbox.dimensions
  let awayDist := min (min sceneDimensions.x sceneDimensions.y) sceneDimensions.z
  let camera : Camera :=
    { position := ⟨sceneBbox.center.x - awayDist, sceneBbox.center.y,
        sceneBbox.lower.z - awayDist⟩
      target := ⟨0, 0, 0⟩ }
  let addLight : Vec3 → ℚ → Light := fun pt intensity =>
    { position := pt + nrm (pt - sceneBbox.center) * awayDist
      intensity := intensity }
  let lights : List Light :=
    [ -- key light
      addLight ⟨sceneBbox.lower.x, sceneBbox.center.y, sceneBbox.lower.z⟩ 1.0,
      -- front light
      addLight ⟨sceneBbox.center.x, sceneBbox.center.y,
        sceneBbox.lower.z - awayDist / 2⟩ 0.2,
      -- fill light
      addLight ⟨sceneBbox.upper.x, sceneBbox.lower.y, sceneBbox.lower.z⟩ 0.75,
      -- background light
      addLight ⟨sceneBbox.lower.x, sceneBbox.upper.y, sceneBbox.upper.z⟩ 0.5,
      -- bottom light
      addLight ⟨sceneBbox.center.x, sceneBbox.lower.y, sceneBbox.center.z⟩ 0.75,
      -- top light
      addLight ⟨sceneBbox.center.x, sceneBbox.upper.y, sceneBbox.center.z⟩ 0.5 ]
  { camera := camera, lights := lights, dla := dla }

/-- Modelled from the spec: a concrete stand-in for the `dla` crate's
`Vec3::normalized` (absent from src/), used only to instantiate theorems that
are universally quantified over the normalization function.  The spec fixes
only the zero-vector behaviour ("if anchor == center the direction is
undefined — treat as a zero-length push"), which this stand-in honours; every
place a concrete instance is needed, the result does not depend on the
choice (the direction is scaled by a zero standoff distance). -/
def nrmSpec (v : Vec3) : Vec3 :=
  if v = ⟨0, 0, 0⟩ then ⟨0, 0, 0⟩ else v

/-- Fuel-driven decimal digit expansion, most significant digit first:
the Lean model of Rust's `Display` for integers used by every `write!`
of a coordinate in `src/src/main.rs` (decimal digits, no leading zeros). -/
def natChars : Nat → Nat → List Char
  | 0, _ => []
  | fuel + 1, n =>
    if n < 10 then [Nat.digitChar n]
    else natChars fuel (n / 10) ++ [Nat.digitChar (n % 10)]

/-- Decimal rendering of a natural number (fuel instantiated). -/
def natStr (n : Nat) : List Char := natChars (n + 1) n

/-- The Lean model of Rust's `Display` for a signed integer: an optional
minus sign followed by the decimal digits of the absolute value. -/
def intChars (n : Int) : List Char :=
  if n < 0 then '-' :: natStr n.natAbs else natStr n.natAbs

/-- `intChars` packaged as a `String`. -/
def intStr (n : Int) : String := ⟨intChars n⟩

/-- `gradients` of `save_pov_scene` (src/src/main.rs line 173). -/
def gradients : Nat := 3

/-- `n = gradients * 2` of `save_pov_scene` (src/src/main.rs line 174). -/
def nBuckets : Nat := gradients * 2

/-- The Lean model of driving Rust's `Iterator::take_while` to exhaustion on
a `by_ref` iterator (src/src/main.rs line 177): elements are taken while the
predicate holds, and the first failing element is consumed from the
underlying iterator and discarded (documented `take_while` behaviour).
Returns the taken elements and the state of the underlying iterator after
the adaptor is dropped. -/
def takeWhileConsume (p : α → Bool) : List α → List α × List α
  | [] => ([], [])
  | x :: xs =>
    if p x then
      let r := takeWhileConsume p xs
      (x :: r.1, r.2)
    else ([], xs)

/-- The cell list of `save_pov_scene` paired with squared distances from the
bbox center and sorted ascending by that distance
(src/src/main.rs lines 166-168). -/
def sortedCells (dla : Dla) : List (Vec3 × Nat) :=
  List.insertionSort (fun a b => a.2 ≤ b.2)
    (dla.cells.map (fun cc => (cc, dla.bbox.center.dist2 cc)))

/-- The base-color lookup of `save_pov_scene` (src/src/main.rs lines
181-187); the `unreachable!()` arm is modelled as `none`.  The `f64` color
literals are modelled as exact rationals. -/
def baseColor (g : Nat) : Option (ℚ × ℚ × ℚ) :=
  if g ≤ 2 then some (0.27, 0.3, 0.02)
  else if g ≤ 4 then some (0.0, 0.6, 0.02)
  else if g = 5 then some (0.34, 0.7, 0.03)
  else if g = 6 then some (0.85, 0.84, 0.00)
  else none

/-- The final color of bucket `i`: the base color of group `5 + i /
gradients` scaled componentwise by `f = (1.0 + (i % gradients)) / gradients`
(src/src/main.rs lines 181-190). -/
def bucketColor (i : Nat) : Option (ℚ × ℚ × ℚ) :=
  (baseColor (5 + i / gradients)).map fun rgb =>
    let f : ℚ := (1.0 + (i % gradients : Nat)) / (gradients : Nat)
    (rgb.1 * f, rgb.2.1 * f, rgb.2.2 * f)

/-- The bucket loop of `save_pov_scene` (src/src/main.rs lines 175-190),
stripped of text emission: for each bucket index of `is` in order, consume
from the remaining sorted cells those whose distance is at most
`(i + 1) * maxD / nBuckets` (dropping the first failing cell, per
`takeWhileConsume`), and pair the bucket with its color; `none` models the
`unreachable!()` panic of an uncovered color group. -/
def povGroups (maxD : Nat) : List Nat → List (Vec3 × Nat) →
    Option (List (List (Vec3 × Nat) × (ℚ × ℚ × ℚ)))
  | [], _ => some []
  | i :: is, cs =>
    let t := takeWhileConsume (fun pd => pd.2 ≤ (i + 1) * maxD / nBuckets) cs
    match bucketColor i with
    | none => none
    | some c => (povGroups maxD is t.2).map fun gs => (t.1, c) :: gs

/-- Right-nested concatenation of text pieces; keeps chunk strings in a
shape whose prefix is cheap to inspect. -/
def catChars (ps : List (List Char)) : List Char :=
  ps.foldr (fun a b => a ++ b) []

/-- The `"\nunion {{"` line of src/src/main.rs line 176 (with the trailing
newline `writeln!` appends). -/
def unionHdrStr : String := "\nunion \x7b\n"

/-- The sphere primitive line of src/src/main.rs line 178. -/
def sphereChunk (p : Vec3) : String :=
  ⟨catChars ["  sphere \x7b <".data, intChars p.x, ", ".data, intChars p.y,
    ", ".data, intChars p.z, ">, 1 \x7d\n".data]⟩

/-- The texture/color block closing a union (src/src/main.rs lines
192-200). -/
def textureChunk (c : ℚ × ℚ × ℚ) : String :=
  ⟨catChars ["  texture \x7b\n    pigment \x7b color rgb<".data,
    (toString c.1).data, ", ".data, (toString c.2.1).data, ", ".data,
    (toString c.2.2).data,
    "> \x7d\n    finish \x7b phong 0.5 \x7d\n  \x7d\n\x7d\n".data]⟩

/-- The text emitted for one bucket: the union header, one sphere line per
cell of the bucket, and the texture/color block
(src/src/main.rs lines 176-201). -/
def renderGroup (g : List (Vec3 × Nat) × (ℚ × ℚ × ℚ)) : List String :=
  unionHdrStr :: (g.1.map fun pd => sphereChunk pd.1) ++ [textureChunk g.2]

/-- The header of the povray file: global settings, bbox comment and camera
block (src/src/main.rs lines 129-154). -/
def povHeader (bbox : BoundingBox) (camera : Camera) : String :=
  ⟨catChars ["// 3D DLA geometry - generated by github.com/d-dorazio/dla\n\n#version 3.7;\n\n#include \"colors.inc\"\n\nglobal_settings \x7b assumed_gamma 1.0 \x7d\n#default\x7b finish \x7b ambient 0.1 diffuse 0.9 \x7d \x7d\n\nbackground \x7b color Black \x7d\n\n// scene bbox <".data,
    intChars bbox.lower.x, ", ".data, intChars bbox.lower.y, ", ".data,
    intChars bbox.lower.z, "> <".data, intChars bbox.upper.x, ", ".data,
    intChars bbox.upper.y, ", ".data, intChars bbox.upper.z,
    ">\n\ncamera \x7b\n  location <".data, intChars camera.position.x,
    ", ".data, intChars camera.position.y, ", ".data,
    intChars camera.position.z, ">\n  look_at <".data,
    intChars camera.target.x, ", ".data, intChars camera.target.y,
    ", ".data, intChars camera.target.z, ">\n\x7d\n".data]⟩

/-- One `light_source` statement (src/src/main.rs lines 156-164): the
light's position, then its intensity repeated as the three rgb
components. -/
def povLight (l : Light) : String :=
  ⟨catChars ["light_source \x7b <".data, intChars l.position.x, ", ".data,
    intChars l.position.y, ", ".data, intChars l.position.z,
    "> color rgb <".data, (toString l.intensity).data, ", ".data,
    (toString l.intensity).data, ", ".data, (toString l.intensity).data,
    "> \x7d\n".data]⟩

/-- `save_pov_scene` of src/src/main.rs as the ordered list of text chunks
it writes (one chunk per `writeln!`): header, one `light_source` per light,
then the bucket loop.  `none` models the panics (the `expect` on an empty
cell list, line 170, and the `unreachable!()` color arm). -/
def povChunks (scene : Scene) : Option (List String) :=
  ((sortedCells scene.dla).getLast?).bind fun last =>
    (povGroups last.2 (List.range nBuckets) (sortedCells scene.dla)).map
      fun gs =>
        povHeader scene.dla.bbox scene.camera :: scene.lights.map povLight
          ++ (gs.map renderGroup).flatten

/-- One line of a `Light` in the javascript output
(src/src/main.rs lines 244-250). -/
def jsLight (l : Light) : String :=
  ⟨catChars ["        \x7b position: \x7b x: ".data, intChars l.position.x,
    ", y: ".data, intChars l.position.y, ", z: ".data, intChars l.position.z,
    " \x7d, intensity: ".data, (toString l.intensity).data, " \x7d,\n".data]⟩

/-- One particle line of the javascript output
(src/src/main.rs lines 258-260). -/
def jsCell (p : Vec3) : String :=
  ⟨catChars ["        \x7b x: ".data, intChars p.x, ", y: ".data,
    intChars p.y, ", z: ".data, intChars p.z, " \x7d,\n".data]⟩

/-- `save_js_scene` of src/src/main.rs as the ordered list of text chunks it
writes: header object with bbox and camera, the lights array, the particles
array, and the closing braces. -/
def jsChunks (scene : Scene) : List String :=
  (⟨catChars ["// 3D DLA geometry - generated by github.com/d-dorazio/dla\n\nvar DLA = \x7b\n    bbox: \x7b\n        lower: \x7b x: ".data,
    intChars scene.dla.bbox.lower.x, ", y: ".data,
    intChars scene.dla.bbox.lower.y, ", z: ".data,
    intChars scene.dla.bbox.lower.z,
    " \x7d,\n        upper: \x7b x: ".data,
    intChars scene.dla.bbox.upper.x, ", y: ".data,
    intChars scene.dla.bbox.upper.y, ", z: ".data,
    intChars scene.dla.bbox.upper.z,
    " \x7d,\n    \x7d,\n    camera: \x7b\n        position: \x7b x: ".data,
    intChars scene.camera.position.x, ", y: ".data,
    intChars scene.camera.position.y, ", z: ".data,
    intChars scene.camera.position.z,
    " \x7d,\n        look_at: \x7b x: ".data,
    intChars scene.camera.target.x, ", y: ".data,
    intChars scene.camera.target.y, ", z: ".data,
    intChars scene.camera.target.z,
    " \x7d,\n    \x7d,\n    lights: [\n".data]⟩ : String)
    :: scene.lights.map jsLight
    ++ ["    ],\n    particles: [\n"]
    ++ scene.dla.cells.map jsCell
    ++ ["    ],\n\x7d;\n"]
/-- The character content of one csv line `x,y,z` (without the newline the
`writeln!` appends), src/src/main.rs line 285. -/
def lineChars (c : Vec3) : List Char :=
  intChars c.x ++ ',' :: intChars c.y ++ ',' :: intChars c.z

/-- One chunk written by `save_csv_scene` per cell: the `x,y,z` line plus
the terminating newline. -/
def csvLine (c : Vec3) : String := ⟨lineChars c ++ ['\n']⟩

/-- `save_csv_scene` of src/src/main.rs (lines 280-287) as the list of lines
it writes: one `x,y,z` line per cell, no header. -/
def saveCsvScene (dla : Dla) : List String := dla.cells.map csvLine

/-- The `SceneFormat` enum of src/src/main.rs. -/
inductive SceneFormat where
  | Povray : SceneFormat
  | Js : SceneFormat
  | Csv : SceneFormat
deriving DecidableEq, Repr

/-- The per-format dispatch of `main` (src/src/main.rs lines 112-118): the
content each serializer produces for the scene (`none` modelling the povray
serializer's panic on an empty cell list). -/
def saveScene (f : SceneFormat) (scene : Scene) : Option (List String) :=
  match f with
  | SceneFormat.Povray => povChunks scene
  | SceneFormat.Js => some (jsChunks scene)
  | SceneFormat.Csv => some (saveCsvScene scene.dla)

/-- The format loop of `main` (src/src/main.rs lines 110-118): the requested
formats are collected into a `HashSet` (set semantics — duplicates collapse;
iteration order is unspecified and no claim depends on it, `List.dedup`
standing in for the set), and each distinct format is written once.  Result:
the (format, content) pairs written. -/
def runExport (fs : List SceneFormat) (scene : Scene) :
    List (SceneFormat × Option (List String)) :=
  fs.dedup.map fun f => (f, saveScene f scene)

/-- Prefix test on the character data of a string, used to recognise the
statement kind a chunk begins with. -/
def hasPre (p : List Char) (s : String) : Bool := p.isPrefixOf s.data

/-- The digit value of a character, inverse of `Nat.digitChar` on decimal
digits. -/
def digitVal (c : Char) : Nat := c.toNat - 48

/-- Decimal parsing of a digit string, most significant digit first. -/
def parseNat (l : List Char) : Nat :=
  l.foldl (fun acc c => acc * 10 + digitVal c) 0

/-- Parsing of an optionally `-`-signed decimal integer. -/
def parseInt (l : List Char) : Int :=
  match l with
  | [] => 0
  | c :: r => if c = '-' then -(parseNat r : Int) else (parseNat (c :: r) : Int)

/-- Split a character list at every comma. -/
def splitComma : List Char → List (List Char)
  | [] => [[]]
  | c :: cs =>
    if c = ',' then [] :: splitComma cs
    else
      match splitComma cs with
      | [] => [[c]]
      | h :: t => (c :: h) :: t

/-- Drop a trailing newline, if any. -/
def trimNl (l : List Char) : List Char :=
  if l.getLast? = some '\n' then l.dropLast else l

/-- Decode one csv line back into a cell position: inverse of `csvLine`. -/
def parseLine (s : String) : Option Vec3 :=
  match splitComma (trimNl s.data) with
  | [a, b, c] => some ⟨parseInt a, parseInt b, parseInt c⟩
  | _ => none


/-- The characters opening every `light_source` statement. -/
def lightPre : List Char := "light_source".data

/-- The characters opening every union block header. -/
def unionPre : List Char := "\nunion".data

/-- Componentwise order on optional bucket colors: both colors defined and
no rgb component decreases.  This is the formal reading of "brightness is
monotonically non-decreasing" for colors obtained by scaling a common base
color componentwise. -/
def colorLe : Option (ℚ × ℚ × ℚ) → Option (ℚ × ℚ × ℚ) → Prop
  | some a, some b => a.1 ≤ b.1 ∧ a.2.1 ≤ b.2.1 ∧ a.2.2 ≤ b.2.2
  | _, _ => False

/-- A concrete degenerate aggregate: a single cell at the origin, whose
bounding box is the single point at the origin (all dimensions zero). -/
def dla0 : Dla := ⟨[⟨0, 0, 0⟩], ⟨⟨0, 0, 0⟩, ⟨0, 0, 0⟩⟩⟩

/-- A concrete two-cell aggregate on the x axis with its enclosing box. -/
def dla1 : Dla := ⟨[⟨0, 0, 0⟩, ⟨1, 0, 0⟩], ⟨⟨0, 0, 0⟩, ⟨1, 0, 0⟩⟩⟩

/-- A concrete aggregate with a non-degenerate bounding box (dimensions
2, 3, 4). -/
def dla2 : Dla := ⟨[⟨0, 0, 0⟩], ⟨⟨-1, -1, -1⟩, ⟨1, 2, 3⟩⟩⟩

lemma hasPre_light_povLight (l : Light) : hasPre lightPre (povLight l) = true := rfl

lemma hasPre_union_povLight (l : Light) : hasPre unionPre (povLight l) = false := rfl

lemma hasPre_light_sphere (p : Vec3) : hasPre lightPre (sphereChunk p) = false := rfl

lemma hasPre_union_sphere (p : Vec3) : hasPre unionPre (sphereChunk p) = false := rfl

lemma hasPre_light_texture (c : ℚ × ℚ × ℚ) : hasPre lightPre (textureChunk c) = false := rfl

lemma hasPre_union_texture (c : ℚ × ℚ × ℚ) : hasPre unionPre (textureChunk c) = false := rfl

lemma hasPre_light_unionHdr : hasPre lightPre unionHdrStr = false := rfl

lemma hasPre_union_unionHdr : hasPre unionPre unionHdrStr = true := rfl

lemma hasPre_light_header (b : BoundingBox) (c : Camera) :
    hasPre lightPre (povHeader b c) = false := rfl

lemma hasPre_union_header (b : BoundingBox) (c : Camera) :
    hasPre unionPre (povHeader b c) = false := rfl

lemma countP_renderGroup_light (g : List (Vec3 × Nat) × (ℚ × ℚ × ℚ)) :
    List.countP (fun s => hasPre lightPre s) (renderGroup g) = 0 := by
  have hs : List.countP (fun s => hasPre lightPre s)
      (g.1.map fun pd => sphereChunk pd.1) = 0 :=
    List.countP_eq_zero.2 fun a ha => by
      obtain ⟨pd, _, rfl⟩ := List.mem_map.1 ha
      simp [hasPre_light_sphere]
  simp only [renderGroup, List.countP_cons, List.countP_append, List.countP_nil,
    hs, hasPre_light_unionHdr, hasPre_light_texture]
  simp

lemma countP_renderGroup_union (g : List (Vec3 × Nat) × (ℚ × ℚ × ℚ)) :
    List.countP (fun s => hasPre unionPre s) (renderGroup g) = 1 := by
  have hs : List.countP (fun s => hasPre unionPre s)
      (g.1.map fun pd => sphereChunk pd.1) = 0 :=
    List.countP_eq_zero.2 fun a ha => by
      obtain ⟨pd, _, rfl⟩ := List.mem_map.1 ha
      simp [hasPre_union_sphere]
  simp only [renderGroup, List.countP_cons, List.countP_append, List.countP_nil,
    hs, hasPre_union_unionHdr, hasPre_union_texture]
  simp

lemma countP_flatten_light (gs : List (List (Vec3 × Nat) × (ℚ × ℚ × ℚ))) :
    List.countP (fun s => hasPre lightPre s) ((gs.map renderGroup).flatten) = 0 := by
  rw [List.countP_flatten]
  simp [List.map_map, Function.comp_def, countP_renderGroup_light]

lemma countP_flatten_union (gs : List (List (Vec3 × Nat) × (ℚ × ℚ × ℚ))) :
    List.countP (fun s => hasPre unionPre s) ((gs.map renderGroup).flatten) = gs.length := by
  rw [List.countP_flatten]
  simp [List.map_map, Function.comp_def, countP_renderGroup_union]

lemma body_no_light (gs : List (List (Vec3 × Nat) × (ℚ × ℚ × ℚ))) :
    ∀ s ∈ (gs.map renderGroup).flatten, hasPre lightPre s = false := by
  intro s hs
  rw [List.mem_flatten] at hs
  obtain ⟨l, hl, hsl⟩ := hs
  rw [List.mem_map] at hl
  obtain ⟨g, _, rfl⟩ := hl
  simp only [renderGroup, List.mem_cons, List.mem_append, List.mem_map,
    List.mem_singleton] at hsl
  rcases hsl with (rfl | ⟨pd, _, rfl⟩) | (rfl | h0)
  · exact hasPre_light_unionHdr
  · exact hasPre_light_sphere pd.1
  · exact hasPre_light_texture g.2
  · exact absurd h0 (List.not_mem_nil s)

lemma bucketColor_isSome_of_mem_range :
    ∀ i ∈ List.range nBuckets, (bucketColor i).isSome = true := by decide

lemma povGroups_length :
    ∀ is : List Nat, (∀ i ∈ is, (bucketColor i).isSome = true) →
      ∀ (maxD : Nat) (cs : List (Vec3 × Nat)),
        ∃ gs, povGroups maxD is cs = some gs ∧ gs.length = is.length := by
  intro is
  induction is with
  | nil => exact fun _ maxD cs => ⟨[], rfl, rfl⟩
  | cons i is ih =>
    intro h maxD cs
    obtain ⟨c, hc⟩ := Option.isSome_iff_exists.1 (h i (List.mem_cons_self i is))
    obtain ⟨gs, hgs, hlen⟩ :=
      ih (fun j hj => h j (List.mem_cons_of_mem i hj)) maxD
        (takeWhileConsume (fun pd => pd.2 ≤ (i + 1) * maxD / nBuckets) cs).2
    refine ⟨((takeWhileConsume (fun pd => pd.2 ≤ (i + 1) * maxD / nBuckets) cs).1, c)
      :: gs, ?_, by simp [hlen]⟩
    simp only [povGroups]
    rw [hc, hgs]
    rfl

lemma sortedCells_ne_nil (dla : Dla) (h : dla.cells ≠ []) : sortedCells dla ≠ [] := by
  unfold sortedCells
  intro hcon
  have hperm := List.perm_insertionSort (fun a b : Vec3 × Nat => a.2 ≤ b.2)
    (dla.cells.map (fun cc => (cc, dla.bbox.center.dist2 cc)))
  rw [hcon] at hperm
  have hlen := hperm.length_eq
  simp at hlen
  exact h (List.length_eq_zero.1 hlen.symm)

lemma povChunks_master (scene : Scene) (h : scene.dla.cells ≠ []) :
    ∃ l body, povChunks scene = some l ∧
      l = povHeader scene.dla.bbox scene.camera :: scene.lights.map povLight ++ body ∧
      List.countP (fun s => hasPre lightPre s) l = scene.lights.length ∧
      List.countP (fun s => hasPre unionPre s) l = nBuckets ∧
      ∀ s ∈ body, hasPre lightPre s = false := by
  obtain ⟨last, hlast⟩ : ∃ a, (sortedCells scene.dla).getLast? = some a := by
    cases hc : (sortedCells scene.dla).getLast? with
    | none => exact absurd (List.getLast?_eq_none_iff.1 hc) (sortedCells_ne_nil _ h)
    | some a => exact ⟨a, rfl⟩
  obtain ⟨gs, hgs, hlen⟩ := povGroups_length (List.range nBuckets)
    bucketColor_isSome_of_mem_range last.2 (sortedCells scene.dla)
  have hsome : povChunks scene =
      some (povHeader scene.dla.bbox scene.camera :: scene.lights.map povLight
        ++ (gs.map renderGroup).flatten) := by
    unfold povChunks
    rw [hlast, Option.some_bind, hgs]
    rfl
  have hlight : List.countP (fun s => hasPre lightPre s)
      (povHeader scene.dla.bbox scene.camera :: scene.lights.map povLight
        ++ (gs.map renderGroup).flatten) = scene.lights.length := by
    have hl : List.countP (fun s => hasPre lightPre s)
        (scene.lights.map povLight) = scene.lights.length := by
      rw [List.countP_eq_length.2 fun a ha => ?_, List.length_map]
      obtain ⟨lt, _, rfl⟩ := List.mem_map.1 ha
      exact hasPre_light_povLight lt
    rw [List.countP_append, List.countP_cons, hl, countP_flatten_light,
      hasPre_light_header]
    simp
  have hunion : List.countP (fun s => hasPre unionPre s)
      (povHeader scene.dla.bbox scene.camera :: scene.lights.map povLight
        ++ (gs.map renderGroup).flatten) = nBuckets := by
    have hl : List.countP (fun s => hasPre unionPre s)
        (scene.lights.map povLight) = 0 :=
      List.countP_eq_zero.2 fun a ha => by
        obtain ⟨lt, _, rfl⟩ := List.mem_map.1 ha
        simp [hasPre_union_povLight]
    rw [List.countP_append, List.countP_cons, hl, countP_flatten_union,
      hasPre_union_header, hlen]
    simp
  exact ⟨_, (gs.map renderGroup).flatten, hsome, rfl, hlight, hunion,
    body_no_light gs⟩

lemma data_mk (l : List Char) : (⟨l⟩ : String).data = l := rfl

lemma digitVal_digitChar : ∀ n, n < 10 → digitVal (Nat.digitChar n) = n := by decide

lemma digitChar_not_special : ∀ k, k < 10 →
    Nat.digitChar k ≠ ',' ∧ Nat.digitChar k ≠ '-' := by decide

lemma natChars_foldl :
    ∀ fuel n : Nat, n < fuel → ∀ init : Nat,
      List.foldl (fun acc c => acc * 10 + digitVal c) init (natChars fuel n) =
        init * 10 ^ (natChars fuel n).length + n := by
  intro fuel
  induction fuel with
  | zero => intro n h; exact absurd h (Nat.not_lt_zero n)
  | succ fuel ih =>
    intro n h init
    by_cases h10 : n < 10
    · simp only [natChars, if_pos h10, List.foldl_cons, List.foldl_nil,
        List.length_singleton, pow_one]
      rw [digitVal_digitChar n h10]
    · simp only [natChars, if_neg h10]
      rw [List.foldl_append]
      have hd : n / 10 < fuel := by
        have h1 : n / 10 < n := Nat.div_lt_self (by omega) (by omega)
        omega
      rw [ih (n / 10) hd init]
      simp only [List.foldl_cons, List.foldl_nil, List.length_append,
        List.length_singleton]
      rw [digitVal_digitChar (n % 10) (Nat.mod_lt n (by omega))]
      have hnm : n / 10 * 10 + n % 10 = n := by omega
      calc (init * 10 ^ (natChars fuel (n / 10)).length + n / 10) * 10 + n % 10
          = init * 10 ^ ((natChars fuel (n / 10)).length + 1)
              + (n / 10 * 10 + n % 10) := by ring
        _ = init * 10 ^ ((natChars fuel (n / 10)).length + 1) + n := by rw [hnm]

lemma parseNat_natStr (n : Nat) : parseNat (natStr n) = n := by
  unfold parseNat natStr
  rw [natChars_foldl (n + 1) n (Nat.lt_succ_self n) 0]
  simp

lemma mem_natChars :
    ∀ (fuel n : Nat) (c : Char), c ∈ natChars fuel n →
      ∃ k, k < 10 ∧ c = Nat.digitChar k := by
  intro fuel
  induction fuel with
  | zero => intro n c hc; simp [natChars] at hc
  | succ fuel ih =>
    intro n c hc
    by_cases h10 : n < 10
    · simp only [natChars, if_pos h10, List.mem_singleton] at hc
      exact ⟨n, h10, hc⟩
    · simp only [natChars, if_neg h10, List.mem_append, List.mem_singleton] at hc
      rcases hc with hc | rfl
      · exact ih (n / 10) c hc
      · exact ⟨n % 10, Nat.mod_lt n (by omega), rfl⟩

lemma natStr_ne_nil (n : Nat) : natStr n ≠ [] := by
  show natChars (n + 1) n ≠ []
  simp only [natChars]
  by_cases h10 : n < 10 <;> simp [h10]

lemma comma_not_mem_natStr (n : Nat) : ',' ∉ natStr n := fun h => by
  obtain ⟨k, hk, he⟩ := mem_natChars (n + 1) n ',' h
  exact (digitChar_not_special k hk).1 he.symm

lemma comma_not_mem_intChars (n : Int) : ',' ∉ intChars n := by
  unfold intChars
  by_cases h : n < 0
  · simp only [if_pos h, List.mem_cons]
    rintro (he | hm)
    · exact absurd he (by decide)
    · exact comma_not_mem_natStr _ hm
  · simp only [if_neg h]
    exact comma_not_mem_natStr _

lemma parseInt_intChars (n : Int) : parseInt (intChars n) = n := by
  by_cases h : n < 0
  · have h1 : intChars n = '-' :: natStr n.natAbs := by
      unfold intChars; rw [if_pos h]
    rw [h1]
    have h2 : parseInt ('-' :: natStr n.natAbs) =
        -(parseNat (natStr n.natAbs) : Int) := by simp [parseInt]
    rw [h2, parseNat_natStr]
    omega
  · have h1 : intChars n = natStr n.natAbs := by
      unfold intChars; rw [if_neg h]
    obtain ⟨c, t, hct⟩ : ∃ c t, natStr n.natAbs = c :: t := by
      cases hcase : natStr n.natAbs with
      | nil => exact absurd hcase (natStr_ne_nil _)
      | cons c t => exact ⟨c, t, rfl⟩
    have hcmem : c ∈ natStr n.natAbs := by rw [hct]; exact List.mem_cons_self c t
    obtain ⟨k, hk, he⟩ := mem_natChars _ _ c hcmem
    have hcne : ¬(c = '-') := by rw [he]; exact (digitChar_not_special k hk).2
    rw [h1, hct]
    simp only [parseInt, if_neg hcne]
    rw [← hct, parseNat_natStr]
    omega

lemma splitComma_no_comma : ∀ l : List Char, ',' ∉ l → splitComma l = [l] := by
  intro l
  induction l with
  | nil => intro _; rfl
  | cons c cs ih =>
    intro h
    have hc : ¬(c = ',') := fun he => h (he ▸ List.mem_cons_self c cs)
    have hcs : ',' ∉ cs := fun hm => h (List.mem_cons_of_mem c hm)
    simp only [splitComma, if_neg hc, ih hcs]

lemma splitComma_append : ∀ a r : List Char, ',' ∉ a →
    splitComma (a ++ ',' :: r) = a :: splitComma r := by
  intro a
  induction a with
  | nil =>
    intro r _
    show splitComma (',' :: r) = [] :: splitComma r
    simp [splitComma]
  | cons c a' ih =>
    intro r h
    have hc : ¬(c = ',') := fun he => h (he ▸ List.mem_cons_self _ _)
    have ha' : ',' ∉ a' := fun hm => h (List.mem_cons_of_mem c hm)
    show splitComma (c :: (a' ++ ',' :: r)) = (c :: a') :: splitComma r
    simp only [splitComma, if_neg hc]
    rw [ih r ha']

lemma parseLine_csvLine (v : Vec3) : parseLine (csvLine v) = some v := by
  have htrim : trimNl (csvLine v).data = lineChars v := by
    show trimNl (lineChars v ++ ['\n']) = lineChars v
    unfold trimNl
    rw [List.getLast?_concat, if_pos rfl, List.dropLast_concat]
  have hsplit : splitComma (lineChars v) =
      [intChars v.x, intChars v.y, intChars v.z] := by
    show splitComma ((intChars v.x ++ (',' :: intChars v.y)) ++
      (',' :: intChars v.z)) = _
    rw [List.append_assoc, List.cons_append,
      splitComma_append _ _ (comma_not_mem_intChars v.x),
      splitComma_append _ _ (comma_not_mem_intChars v.y),
      splitComma_no_comma _ (comma_not_mem_intChars v.z)]
  unfold parseLine
  rw [htrim, hsplit]
  show some ⟨parseInt (intChars v.x), parseInt (intChars v.y),
    parseInt (intChars v.z)⟩ = some v
  rw [parseInt_intChars, parseInt_intChars, parseInt_intChars]

lemma csvLine_injective : Function.Injective csvLine := by
  intro a b h
  have h2 := congrArg parseLine h
  rw [parseLine_csvLine, parseLine_csvLine] at h2
  exact Option.some_inj.1 h2

lemma Vec3_hmul_zero (v : Vec3) : v * (0 : Int) = (⟨0, 0, 0⟩ : Vec3) := by
  show (⟨v.x * 0, v.y * 0, v.z * 0⟩ : Vec3) = _
  simp

lemma Vec3_add_zero (v : Vec3) : v + (⟨0, 0, 0⟩ : Vec3) = v := by
  show (⟨v.x + 0, v.y + 0, v.z + 0⟩ : Vec3) = v
  simp

/-- C7: for the fixed configuration `gradients = 3`, `nBuckets = 6`, the
base-color group index `g = 5 + i / gradients` computed for every bucket
index `i` in `0..nBuckets` falls inside a band covered by the color lookup
table, so the defect branch for an uncovered `g` (the `unreachable!()` arm,
modelled as `none`) is never executed. -/
theorem color_bands_cover (i : Nat) (hi : i < nBuckets) :
    (baseColor (5 + i / gradients)).isSome = true := by
  have h : ∀ i, i < nBuckets → (baseColor (5 + i / gradients)).isSome = true := by
    decide
  exact h i hi

/-- Witness for C7 at bucket index 0. -/
theorem color_bands_cover_witness :
    0 < nBuckets ∧ (baseColor (5 + 0 / gradients)).isSome = true :=
  ⟨by decide, color_bands_cover 0 (by decide)⟩

/-- C9: within each 3-bucket group (bucket indices sharing the same
`i / gradients`, hence the same base color, for `gradients = 3`), the final
bucket color is componentwise non-decreasing — hence non-decreasing in
brightness — as `i % gradients` increases, since the base color is scaled
componentwise by `f = (1 + (i % gradients)) / gradients`. -/
theorem bucket_brightness_monotone (i j : Nat) (hi : i < nBuckets)
    (hj : j < nBuckets) (hg : i / gradients = j / gradients)
    (hm : i % gradients ≤ j % gradients) :
    colorLe (bucketColor i) (bucketColor j) := by
  have hi6 : i < 6 := by simpa [nBuckets, gradients] using hi
  have hj6 : j < 6 := by simpa [nBuckets, gradients] using hj
  interval_cases i <;> interval_cases j <;>
    simp_all [gradients, colorLe, bucketColor, baseColor] <;> norm_num

/-- Witness for C9 at bucket indices 3 and 5 (both in the second group). -/
theorem bucket_brightness_monotone_witness :
    (3 < nBuckets ∧ 5 < nBuckets ∧ 3 / gradients = 5 / gradients ∧
      3 % gradients ≤ 5 % gradients) ∧
    colorLe (bucketColor 3) (bucketColor 5) :=
  ⟨⟨by decide, by decide, by decide, by decide⟩,
    bucket_brightness_monotone 3 5 (by decide) (by decide) (by decide) (by decide)⟩

/-- C4: for every bounding box with all dimensions positive, the synthesized
camera sits at `(center.x − away, center.y, lower.z − away)` where `away` is
the minimum of the three bbox dimensions, its target is the world origin,
and the camera's z-component is strictly below the box's lower z. -/
theorem camera_position_spec (nrm : Vec3 → Vec3) (dla : Dla)
    (hx : 0 < dla.bbox.dimensions.x) (hy : 0 < dla.bbox.dimensions.y)
    (hz : 0 < dla.bbox.dimensions.z) :
    (Scene.new nrm dla).camera.position =
      ⟨dla.bbox.center.x -
          min (min dla.bbox.dimensions.x dla.bbox.dimensions.y)
            dla.bbox.dimensions.z,
        dla.bbox.center.y,
        dla.bbox.lower.z -
          min (min dla.bbox.dimensions.x dla.bbox.dimensions.y)
            dla.bbox.dimensions.z⟩ ∧
    (Scene.new nrm dla).camera.target = ⟨0, 0, 0⟩ ∧
    (Scene.new nrm dla).camera.position.z < dla.bbox.lower.z := by
  refine ⟨rfl, rfl, ?_⟩
  have h1 : 0 < min (min dla.bbox.dimensions.x dla.bbox.dimensions.y)
      dla.bbox.dimensions.z := lt_min (lt_min hx hy) hz
  show dla.bbox.lower.z -
      min (min dla.bbox.dimensions.x dla.bbox.dimensions.y)
        dla.bbox.dimensions.z < dla.bbox.lower.z
  exact sub_lt_self _ h1

/-- Witness for C4 at a concrete box of dimensions (2, 3, 4). -/
theorem camera_position_spec_witness :
    (0 < dla2.bbox.dimensions.x ∧ 0 < dla2.bbox.dimensions.y ∧
      0 < dla2.bbox.dimensions.z) ∧
    ((Scene.new nrmSpec dla2).camera.position =
        ⟨dla2.bbox.center.x -
            min (min dla2.bbox.dimensions.x dla2.bbox.dimensions.y)
              dla2.bbox.dimensions.z,
          dla2.bbox.center.y,
          dla2.bbox.lower.z -
            min (min dla2.bbox.dimensions.x dla2.bbox.dimensions.y)
              dla2.bbox.dimensions.z⟩ ∧
      (Scene.new nrmSpec dla2).camera.target = ⟨0, 0, 0⟩ ∧
      (Scene.new nrmSpec dla2).camera.position.z < dla2.bbox.lower.z) :=
  ⟨⟨by decide, by decide, by decide⟩,
    camera_position_spec nrmSpec dla2 (by decide) (by decide) (by decide)⟩

/-- C5: for every bounding box (and any normalization function supplied for
the library's `Vec3::normalized`), scene synthesis produces exactly 6
lights in the fixed order key, front, fill, background, bottom, top, with
intensities exactly 1.0, 0.2, 0.75, 0.5, 0.75, 0.5 in that order, and each
light's position is its anchor point pushed outward from the bbox center by
`away` along the `nrm`-direction of (anchor − center). -/
theorem lights_spec (nrm : Vec3 → Vec3) (dla : Dla) :
    (Scene.new nrm dla).lights.map Light.intensity =
      [1.0, 0.2, 0.75, 0.5, 0.75, 0.5] ∧
    (Scene.new nrm dla).lights.map Light.position =
      ([⟨dla.bbox.lower.x, dla.bbox.center.y, dla.bbox.lower.z⟩,
        ⟨dla.bbox.center.x, dla.bbox.center.y,
          dla.bbox.lower.z -
            min (min dla.bbox.dimensions.x dla.bbox.dimensions.y)
              dla.bbox.dimensions.z / 2⟩,
        ⟨dla.bbox.upper.x, dla.bbox.lower.y, dla.bbox.lower.z⟩,
        ⟨dla.bbox.lower.x, dla.bbox.upper.y, dla.bbox.upper.z⟩,
        ⟨dla.bbox.center.x, dla.bbox.lower.y, dla.bbox.center.z⟩,
        ⟨dla.bbox.center.x, dla.bbox.upper.y, dla.bbox.center.z⟩] :
        List Vec3).map
        (fun pt => pt + nrm (pt - dla.bbox.center) *
          min (min dla.bbox.dimensions.x dla.bbox.dimensions.y)
            dla.bbox.dimensions.z) :=
  ⟨rfl, rfl⟩

/-- C2 is false on the code: no degenerate-box validation exists.  At the
concrete single-point aggregate `dla0` (all bounding-box dimensions zero),
scene synthesis runs to completion — producing a definite camera and 6
lights — and every serializer (povray, javascript, csv) produces output,
instead of the export aborting with an error. -/
theorem degenerate_bbox_not_rejected :
    dla0.bbox.dimensions = ⟨0, 0, 0⟩ ∧
    (Scene.new nrmSpec dla0).camera.position = ⟨0, 0, 0⟩ ∧
    (Scene.new nrmSpec dla0).lights.length = 6 ∧
    ((runExport [SceneFormat.Povray, SceneFormat.Js, SceneFormat.Csv]
        (Scene.new nrmSpec dla0)).all fun p => p.2.isSome) = true := by
  decide

/-- C2 (amended): scene synthesis performs no degeneracy check and is total.
For every aggregate whose bounding box is well-formed (lower ≤ upper
componentwise) but degenerate (some dimension zero), `Scene::new` proceeds
with standoff distance `away = 0`: the camera is placed at
`(center.x, center.y, lower.z)` with target the origin, and the six lights
are placed exactly at their anchor points with the fixed intensities. -/
theorem scene_new_total_on_degenerate (nrm : Vec3 → Vec3) (dla : Dla)
    (hx : dla.bbox.lower.x ≤ dla.bbox.upper.x)
    (hy : dla.bbox.lower.y ≤ dla.bbox.upper.y)
    (hz : dla.bbox.lower.z ≤ dla.bbox.upper.z)
    (h0 : dla.bbox.dimensions.x = 0 ∨ dla.bbox.dimensions.y = 0 ∨
      dla.bbox.dimensions.z = 0) :
    (Scene.new nrm dla).camera.position =
      ⟨dla.bbox.center.x, dla.bbox.center.y, dla.bbox.lower.z⟩ ∧
    (Scene.new nrm dla).camera.target = ⟨0, 0, 0⟩ ∧
    (Scene.new nrm dla).lights.map Light.position =
      [⟨dla.bbox.lower.x, dla.bbox.center.y, dla.bbox.lower.z⟩,
       ⟨dla.bbox.center.x, dla.bbox.center.y, dla.bbox.lower.z⟩,
       ⟨dla.bbox.upper.x, dla.bbox.lower.y, dla.bbox.lower.z⟩,
       ⟨dla.bbox.lower.x, dla.bbox.upper.y, dla.bbox.upper.z⟩,
       ⟨dla.bbox.center.x, dla.bbox.lower.y, dla.bbox.center.z⟩,
       ⟨dla.bbox.center.x, dla.bbox.upper.y, dla.bbox.center.z⟩] ∧
    (Scene.new nrm dla).lights.map Light.intensity =
      [1.0, 0.2, 0.75, 0.5, 0.75, 0.5] := by
  have h1 : (0 : Int) ≤ dla.bbox.dimensions.x := by
    show (0 : Int) ≤ dla.bbox.upper.x - dla.bbox.lower.x
    omega
  have h2 : (0 : Int) ≤ dla.bbox.dimensions.y := by
    show (0 : Int) ≤ dla.bbox.upper.y - dla.bbox.lower.y
    omega
  have h3 : (0 : Int) ≤ dla.bbox.dimensions.z := by
    show (0 : Int) ≤ dla.bbox.upper.z - dla.bbox.lower.z
    omega
  have haway : min (min dla.bbox.dimensions.x dla.bbox.dimensions.y)
      dla.bbox.dimensions.z = 0 := by
    have hle : min (min dla.bbox.dimensions.x dla.bbox.dimensions.y)
        dla.bbox.dimensions.z ≤ 0 := by
      rcases h0 with h | h | h
      · exact le_trans (le_trans (min_le_left _ _) (min_le_left _ _)) h.le
      · exact le_trans (le_trans (min_le_left _ _) (min_le_right _ _)) h.le
      · exact le_trans (min_le_right _ _) h.le
    exact le_antisymm hle (le_min (le_min h1 h2) h3)
  simp only [Scene.new]
  rw [haway]
  simp [Vec3_hmul_zero, Vec3_add_zero]

/-- Witness for the amended C2 at the concrete degenerate aggregate. -/
theorem scene_new_total_on_degenerate_witness :
    (dla0.bbox.lower.x ≤ dla0.bbox.upper.x ∧
     dla0.bbox.lower.y ≤ dla0.bbox.upper.y ∧
     dla0.bbox.lower.z ≤ dla0.bbox.upper.z ∧ dla0.bbox.dimensions.x = 0) ∧
    ((Scene.new nrmSpec dla0).camera.position =
        ⟨dla0.bbox.center.x, dla0.bbox.center.y, dla0.bbox.lower.z⟩ ∧
      (Scene.new nrmSpec dla0).camera.target = ⟨0, 0, 0⟩ ∧
      (Scene.new nrmSpec dla0).lights.map Light.position =
        [⟨dla0.bbox.lower.x, dla0.bbox.center.y, dla0.bbox.lower.z⟩,
         ⟨dla0.bbox.center.x, dla0.bbox.center.y, dla0.bbox.lower.z⟩,
         ⟨dla0.bbox.upper.x, dla0.bbox.lower.y, dla0.bbox.lower.z⟩,
         ⟨dla0.bbox.lower.x, dla0.bbox.upper.y, dla0.bbox.upper.z⟩,
         ⟨dla0.bbox.center.x, dla0.bbox.lower.y, dla0.bbox.center.z⟩,
         ⟨dla0.bbox.center.x, dla0.bbox.upper.y, dla0.bbox.center.z⟩] ∧
      (Scene.new nrmSpec dla0).lights.map Light.intensity =
        [1.0, 0.2, 0.75, 0.5, 0.75, 0.5]) :=
  ⟨⟨by decide, by decide, by decide, by decide⟩,
    scene_new_total_on_degenerate nrmSpec dla0 (by decide) (by decide)
      (by decide) (Or.inl (by decide))⟩

/-- C1 is violated by the code: at the two-cell aggregate `dla1` the
bucket loop of the povray serializer assigns only 1 of the 2 cells to a
bucket.  The cell `(1,0,0)` (squared distance 1 from the bbox center, the
maximum) is consumed and discarded by the first bucket's `take_while`
(which eats the first element failing its threshold test), so it lands in
no bucket: the bucket cell-counts are [1,0,0,0,0,0], summing to 1 ≠ 2. -/
theorem povray_bucketing_drops_cells :
    dla1.cells.length = 2 ∧ (⟨1, 0, 0⟩ : Vec3) ∈ dla1.cells ∧
    (sortedCells dla1).getLast? = some (⟨1, 0, 0⟩, 1) ∧
    (povGroups 1 (List.range nBuckets) (sortedCells dla1)).map
        (fun gs => gs.map fun g => g.1.length) = some [1, 0, 0, 0, 0, 0] ∧
    (povGroups 1 (List.range nBuckets) (sortedCells dla1)).map
        (fun gs => gs.map fun g =>
          decide (((⟨1, 0, 0⟩ : Vec3), 1) ∈ g.1)) =
      some [false, false, false, false, false, false] := by
  decide

/-- C3 is false on the code: at the single-cell aggregate `dla0` only
bucket 0 is non-empty, yet the povray output contains 6 union blocks — one
per bucket index, including the five empty buckets. -/
theorem union_blocks_for_empty_buckets :
    ((povChunks (Scene.new nrmSpec dla0)).map fun l =>
        List.countP (fun s => hasPre unionPre s) l) = some 6 ∧
    (sortedCells dla0).getLast? = some (⟨0, 0, 0⟩, 0) ∧
    ((povGroups 0 (List.range nBuckets) (sortedCells dla0)).map fun gs =>
        (gs.filter fun g => !g.1.isEmpty).length) = some 1 := by
  decide

/-- C3 (amended): for every scene with a non-empty cell collection, the
povray serializer emits exactly one `union{...}` block per bucket index —
`nBuckets = 6` blocks in total — whether or not any cell is assigned to the
bucket; a bucket with no cells still yields a union block holding only the
texture/color block. -/
theorem union_blocks_count (scene : Scene) (h : scene.dla.cells ≠ []) :
    ∃ l, povChunks scene = some l ∧
      List.countP (fun s => hasPre unionPre s) l = nBuckets := by
  obtain ⟨l, _, hsome, _, _, hunion, _⟩ := povChunks_master scene h
  exact ⟨l, hsome, hunion⟩

/-- Witness for the amended C3 at the single-cell scene (where five of the
six buckets are empty). -/
theorem union_blocks_count_witness :
    (Scene.new nrmSpec dla0).dla.cells ≠ [] ∧
    ∃ l, povChunks (Scene.new nrmSpec dla0) = some l ∧
      List.countP (fun s => hasPre unionPre s) l = nBuckets :=
  ⟨by decide, union_blocks_count (Scene.new nrmSpec dla0) (by decide)⟩

/-- C10: for every scene holding 6 lights and a non-empty cell collection,
the povray output consists of the header, then exactly one `light_source`
statement per light (6 in total, none elsewhere in the body), and exactly 6
union blocks — one per bucket index, emitted even for buckets to which no
cell is assigned. -/
theorem povray_six_lights_six_unions (scene : Scene)
    (h6 : scene.lights.length = 6) (hne : scene.dla.cells ≠ []) :
    ∃ l body, povChunks scene = some l ∧
      l = povHeader scene.dla.bbox scene.camera :: scene.lights.map povLight
        ++ body ∧
      List.countP (fun s => hasPre lightPre s) l = 6 ∧
      List.countP (fun s => hasPre unionPre s) l = 6 ∧
      ∀ s ∈ body, hasPre lightPre s = false := by
  obtain ⟨l, body, hsome, hdec, hlight, hunion, hbody⟩ :=
    povChunks_master scene hne
  exact ⟨l, body, hsome, hdec, hlight.trans h6, hunion.trans rfl, hbody⟩

/-- Witness for C10 at the single-cell scene. -/
theorem povray_six_lights_six_unions_witness :
    (Scene.new nrmSpec dla0).lights.length = 6 ∧
    (Scene.new nrmSpec dla0).dla.cells ≠ [] ∧
    ∃ l body, povChunks (Scene.new nrmSpec dla0) = some l ∧
      l = povHeader (Scene.new nrmSpec dla0).dla.bbox
          (Scene.new nrmSpec dla0).camera
        :: (Scene.new nrmSpec dla0).lights.map povLight ++ body ∧
      List.countP (fun s => hasPre lightPre s) l = 6 ∧
      List.countP (fun s => hasPre unionPre s) l = 6 ∧
      ∀ s ∈ body, hasPre lightPre s = false :=
  ⟨rfl, by decide,
    povray_six_lights_six_unions (Scene.new nrmSpec dla0) rfl (by decide)⟩

lemma filter_eq_singleton_of_nodup {α : Type} [DecidableEq α] :
    ∀ (l : List α) (f : α), l.Nodup → f ∈ l →
      l.filter (fun g => decide (g = f)) = [f] := by
  intro l
  induction l with
  | nil => intro f _ hf; exact absurd hf (List.not_mem_nil f)
  | cons a t ih =>
    intro f hnd hf
    obtain ⟨hat, hndt⟩ := List.nodup_cons.1 hnd
    by_cases haf : a = f
    · subst haf
      have ht : t.filter (fun g => decide (g = a)) = [] :=
        List.filter_eq_nil_iff.2 fun x hx => by
          simp only [decide_eq_true_eq]
          exact fun he => hat (he ▸ hx)
      simp [List.filter_cons, ht]
    · have hft : f ∈ t := by
        rcases List.mem_cons.1 hf with h | h
        · exact absurd h.symm haf
        · exact h
      simp [List.filter_cons, haf, ih f hndt hft]

/-- C8: requesting the same output format more than once in a single run is
idempotent.  The format list is deduplicated (the `HashSet` collection in
`main`), so for any requested format exactly one write is performed, and
its (format, content) pair is exactly what a run requesting that format
alone would produce. -/
theorem duplicate_format_single_write (fs : List SceneFormat) (scene : Scene)
    (f : SceneFormat) (hf : f ∈ fs) :
    (runExport fs scene).filter (fun p => decide (p.1 = f)) =
      runExport [f] scene := by
  unfold runExport
  rw [List.filter_map]
  have hcomp : ((fun p : SceneFormat × Option (List String) =>
      decide (p.1 = f)) ∘ fun g => (g, saveScene g scene)) =
      fun g => decide (g = f) := rfl
  rw [hcomp, filter_eq_singleton_of_nodup fs.dedup f (List.nodup_dedup fs)
    (List.mem_dedup.2 hf)]
  have hd : List.dedup [f] = [f] := by
    rw [List.dedup_cons_of_not_mem (List.not_mem_nil f), List.dedup_nil]
  rw [hd]

/-- Witness for C8: requesting povray twice performs one povray write with
the content of a single-request run. -/
theorem duplicate_format_single_write_witness :
    SceneFormat.Povray ∈ [SceneFormat.Povray, SceneFormat.Povray] ∧
    (runExport [SceneFormat.Povray, SceneFormat.Povray]
        (Scene.new nrmSpec dla0)).filter
        (fun p => decide (p.1 = SceneFormat.Povray)) =
      runExport [SceneFormat.Povray] (Scene.new nrmSpec dla0) :=
  ⟨by decide,
    duplicate_format_single_write [SceneFormat.Povray, SceneFormat.Povray]
      (Scene.new nrmSpec dla0) SceneFormat.Povray (by decide)⟩

/-- C6: for every aggregate with distinct cell positions, the tabular (csv)
serializer emits one `x,y,z` line per cell with no header; decoding each
emitted line recovers exactly the cell list (so, as unordered sets, the
lines and the cell set correspond exactly), the lines are pairwise distinct
(no duplication), and a cell's line appears in the output exactly when the
cell is in the aggregate (no loss). -/
theorem csv_lines_roundtrip (dla : Dla) (h : dla.cells.Nodup) :
    (saveCsvScene dla).map parseLine = dla.cells.map some ∧
    (saveCsvScene dla).Nodup ∧
    ∀ c : Vec3, csvLine c ∈ saveCsvScene dla ↔ c ∈ dla.cells := by
  refine ⟨?_, ?_, ?_⟩
  · show (dla.cells.map csvLine).map parseLine = dla.cells.map some
    rw [List.map_map]
    exact List.map_congr_left fun a _ => parseLine_csvLine a
  · exact h.map csvLine_injective
  · intro c
    constructor
    · intro hm
      obtain ⟨a, ha, he⟩ := List.mem_map.1 hm
      rwa [← csvLine_injective he]
    · exact fun hm => List.mem_map_of_mem csvLine hm

/-- Witness for C6 at the concrete two-cell aggregate. -/
theorem csv_lines_roundtrip_witness :
    dla1.cells.Nodup ∧
    ((saveCsvScene dla1).map parseLine = dla1.cells.map some ∧
     (saveCsvScene dla1).Nodup ∧
     ∀ c : Vec3, csvLine c ∈ saveCsvScene dla1 ↔ c ∈ dla1.cells) :=
  ⟨by decide, csv_lines_roundtrip dla1 (by decide)⟩
